import Mathlib

/-!
Verification of the browser-engine repository: a shallow embedding of the
scroll handling, history, cookie attachment, response cache, redirect
handling, HTTP body reading, layout height computation, postMessage and
HTTPS request caching, with theorems settling the specification claims.

Numeric values from the source are embedded as rationals (Python floats
appear only as exact decimal constants on the paths modelled here), byte
streams as lists of characters, and dictionaries as association lists.
-/

/-- Modelled from the spec: the file browser_engine/common/constants.py is
absent from src (only importers of it are present), so the numeric value of
SCROLL_STEP is not available; the spec names the constant without fixing a
value.  The theorems below do not depend on the chosen value. -/
def SCROLL_STEP : ℚ := 100

/-- Modelled from the spec: vertical margin VSTEP from the absent
browser_engine/common/constants.py; the spec uses it only symbolically. -/
def VSTEP : ℚ := 18

/-- Modelled from the spec: horizontal margin HSTEP from the absent
browser_engine/common/constants.py; the spec uses it only symbolically. -/
def HSTEP : ℚ := 13

/-- The per-tab state touched by the scroll and history events
(browser_engine/content/tab.py).  docHeight is root_frame.document.height
when a document is present (Tab.get_max_y reads it), none otherwise. -/
structure Tab where
  scroll : ℚ
  height : ℚ
  history : List String
  url : Option String
  docHeight : Option ℚ
deriving DecidableEq

/-- Tab.get_max_y: document.height + 2 * VSTEP when a root frame with a
document exists, else 0. -/
def Tab.get_max_y (t : Tab) : ℚ :=
  match t.docHeight with
  | some h => h + 2 * VSTEP
  | none => 0

/-- Tab.scrolldown (tab.py lines 100-103): scroll becomes
min(scroll + SCROLL_STEP, max(0, get_max_y() - height)). -/
def Tab.scrolldown (t : Tab) : Tab :=
  let documentHeight := t.get_max_y
  let maxScroll := max 0 (documentHeight - t.height)
  { t with scroll := min (t.scroll + SCROLL_STEP) maxScroll }

/-- Tab.scollup (tab.py lines 105-108, name as in the source): returns
unchanged when scroll is at most 0, else scroll becomes
max(0, scroll - SCROLL_STEP). -/
def Tab.scollup (t : Tab) : Tab :=
  if t.scroll ≤ 0 then t
  else { t with scroll := max 0 (t.scroll - SCROLL_STEP) }

/-- The SCROLL_TO branch of MainThread._handle_event
(background/main_thread.py lines 126-129): the tab scroll is assigned the
posted value directly, with no clamping. -/
def MainThread.handleScrollTo (t : Tab) (s : ℚ) : Tab :=
  { t with scroll := s }

/-- Tab.load (tab.py lines 110-123) as far as history, current URL and
scroll are concerned: the url is appended to the history and becomes the
root frame url.  The scroll field is not touched by Tab.load; the fresh
frame and rendering do not write it either.  The document height change of
the newly loaded page is outside this embedding and irrelevant to the
history and scroll claims. -/
def Tab.load (t : Tab) (url : String) : Tab :=
  { t with history := t.history ++ [url], url := some url }

/-- Tab.go_back (tab.py lines 234-238): when the history has depth more
than 1, pop the top, then load the new top (which appends it again). -/
def Tab.go_back (t : Tab) : Tab :=
  if 1 < t.history.length then
    let popped := t.history.dropLast
    let backUrl := popped.getLastD ""
    Tab.load { t with history := popped } backUrl
  else t

/-- The cookie jar: host maps to the cookie string and its lowercased
parameter map (networking/security, populated by _read_http_response). -/
abbrev CookieJar := List (String × String × List (String × String))

/-- The cookie attachment decision inside HTTPBase._send_http_request
(networking/http_base.py lines 23-42) given that the jar holds an entry for
the host: allow_cookie starts True; only when a referrer is present and
the samesite parameter (default "none") equals "lax" and the method is not
GET is it replaced by the host comparison.  The method is "POST" exactly
when the payload is truthy. -/
def sendCookieAllowed (host : String) (params : List (String × String))
    (referrerHost : Option String) (payloadTruthy : Bool) : Bool :=
  let method := if payloadTruthy then "POST" else "GET"
  match referrerHost with
  | none => true
  | some rh =>
    if ((params.lookup "samesite").getD "none") = "lax" ∧ method ≠ "GET" then
      host == rh
    else true

/-- Whether _send_http_request writes a Cookie header: the host must be in
the jar and the samesite-lax gate must allow it. -/
def attachesCookie (jar : CookieJar) (host : String)
    (referrerHost : Option String) (payloadTruthy : Bool) : Bool :=
  match jar.lookup host with
  | none => false
  | some (_cookie, params) => sendCookieAllowed host params referrerHost payloadTruthy

/-- The attachment rule in the words of the spec (section 3, Cookie jar):
attached when the method is GET or when the request host equals the
referrer host; otherwise withheld. -/
def specLaxAttach (host : String) (referrerHost : Option String)
    (payloadTruthy : Bool) : Bool :=
  let method := if payloadTruthy then "POST" else "GET"
  method == "GET" ||
    (match referrerHost with
     | some rh => host == rh
     | none => false)

/-- A cached response in CacheManager (networking/cache_manager.py): the
stored tuple (status, headers, body, csp, expires_at). -/
structure CacheEntry where
  status : Int
  headers : List (String × String)
  body : String
  csp : Option String
  expiresAt : ℚ
deriving DecidableEq

/-- The response cache: url string to entry, one entry per key. -/
abbrev Cache := List (String × CacheEntry)

/-- Python substring test (the expression pat in s) for a nonempty
pattern, via splitOn. -/
def containsSubstr (s pat : String) : Bool :=
  (s.splitOn pat).length != 1

/-- The characters Python str.strip removes. -/
def isPySpace (c : Char) : Bool :=
  c = ' ' || c = '\t' || c = '\n' || c = '\r' || c = '\x0b' || c = '\x0c'

/-- Python strip() on a byte or character sequence. -/
def stripLine (l : List Char) : List Char :=
  ((l.dropWhile isPySpace).reverse.dropWhile isPySpace).reverse

/-- One decimal digit. -/
def decDigit? (c : Char) : Option Nat :=
  if '0' ≤ c ∧ c ≤ '9' then some (c.toNat - '0'.toNat) else none

/-- The tail of the digit part of a Python int literal: digits in which a
single underscore may stand between two digits; a leading, trailing or
doubled underscore is an error. -/
def pyDigitsAux (acc : Nat) : List Char → Option Nat
  | [] => some acc
  | '_' :: c :: cs =>
    match decDigit? c with
    | some d => pyDigitsAux (10 * acc + d) cs
    | none => none
  | ['_'] => none
  | c :: cs =>
    match decDigit? c with
    | some d => pyDigitsAux (10 * acc + d) cs
    | none => none

/-- The digit part of a Python int literal: nonempty and starting with a
digit; see pyDigitsAux for the underscore rule. -/
def pyDigitsParse : List Char → Option Nat
  | [] => none
  | c :: cs =>
    match decDigit? c with
    | some d => pyDigitsAux d cs
    | none => none

/-- Python int(s) on an ascii string: surrounding whitespace is stripped,
an optional sign precedes the digits, and single underscores may separate
digit groups; anything else raises ValueError - none here. -/
def pyIntParse (l : List Char) : Option Int :=
  match stripLine l with
  | '+' :: rest => (pyDigitsParse rest).map (fun n => (n : Int))
  | '-' :: rest => (pyDigitsParse rest).map (fun n => -(n : Int))
  | rest => (pyDigitsParse rest).map (fun n => (n : Int))

/-- The max-age extraction in CacheManager.set: the comma-separated
directives are stripped and the first one starting with "max-age=" has
the part after the first "=" parsed by Python int() - which, on the
server-supplied value, tolerates surrounding whitespace, a sign and
digit-group underscores; a parse failure raises ValueError, so nothing is
stored (none here). -/
def parseMaxAge (cacheControl : String) : Option Int :=
  match ((cacheControl.splitOn ",").map String.trim).find?
      (fun d => d.startsWith "max-age=") with
  | some d => pyIntParse (d.drop 8).data
  | none => none

/-- CacheManager.get (cache_manager.py lines 8-20): not present gives
none; an entry with time.time() at or past expires_at is deleted and none
is returned; otherwise the stored tuple without expires_at is returned.
The pair is the returned value and the cache afterwards. -/
def CacheManager.get (cache : Cache) (urlStr : String) (now : ℚ) :
    Option (Int × List (String × String) × String × Option String) × Cache :=
  match List.lookup urlStr cache with
  | none => (none, cache)
  | some e =>
    if e.expiresAt ≤ now then
      (none, cache.filter (fun p => p.1 != urlStr))
    else
      (some (e.status, e.headers, e.body, e.csp), cache)

/-- CacheManager.set (cache_manager.py lines 22-43): nothing is stored
when "no-store" occurs in the lowercased Cache-Control value or when no
max-age directive parses; otherwise the entry is stored keyed by the url
string with expires_at = now + max_age. -/
def CacheManager.set (cache : Cache) (urlStr : String) (status : Int)
    (headers : List (String × String)) (body : String) (csp : Option String)
    (now : ℚ) : Cache :=
  let cacheControl := ((headers.lookup "cache-control").getD "").toLower
  if containsSubstr cacheControl "no-store" then cache
  else
    match parseMaxAge cacheControl with
    | none => cache
    | some maxAge =>
      (urlStr, ⟨status, headers, body, csp, now + (maxAge : ℚ)⟩) ::
        cache.filter (fun p => p.1 != urlStr)

/-- Truncation toward zero, the behaviour of Python int() on a float. -/
def pythonInt (q : ℚ) : Int :=
  if q < 0 then ⌈q⌉ else ⌊q⌋

/-- The font pixel size computed identically in TextLayout.layout
(layout/text_layout.py line 21), BlockLayout.word (layout/block_layout.py
line 115) and InputLayout.layout: int(float(style font-size without the px
suffix) * .75).  The argument is the numeric value of the resolved CSS
font-size in px. -/
def layoutFontPx (fontSizePx : ℚ) : Int :=
  pythonInt (fontSizePx * (3 / 4 : ℚ))

/-- The formula in the words of the spec (section 4.6): px size =
round(font-size-in-px * 0.75), rounding half up. -/
def specFontPx (fontSizePx : ℚ) : Int :=
  ⌊fontSizePx * (3 / 4 : ℚ) + 1 / 2⌋

/-- What JSContext.postMessage can observe of a frame: its id, its origin
(frame.url.origin() when the url is set) and whether a js context exists
(scripting/js_context.py). -/
structure FrameInfo where
  frameId : Int
  origin : Option String
  hasJsContext : Bool
deriving DecidableEq

/-- JSContext.postMessage (scripting/js_context.py lines 226-239).  The
returned value is the message event delivered to the target frame, if any:
the frame is looked up, the targetOrigin check is performed, and then the
function returns - the dispatch_message_event call on the final line is
commented out in the source (marked TODO), so every path yields none. -/
def JSContext.postMessage (frames : List FrameInfo) (targetFrameId : Int)
    (_message : String) (targetOrigin : String) : Option (Int × String) :=
  match frames.find? (fun f => f.frameId == targetFrameId) with
  | none => none
  | some f =>
    if f.hasJsContext = false then none
    else if targetOrigin != "*" &&
        (match f.origin with | some o => o != targetOrigin | none => false) then
      none
    else
      none

/-- The errors Frame.load raises itself (content/frame.py lines 64-111):
the too-many-redirects guard and the missing Location header. -/
inductive LoadErr where
  | tooManyRedirects
  | missingLocation
deriving DecidableEq

/-- What Frame.load reads off a network response: the error field of the
NetworkResponse, the status, and headers.get("location"). -/
structure NetResp where
  error : Option String
  status : Int
  location : Option String

/-- Frame.load (content/frame.py lines 64-111) restricted to fetching and
redirect handling, over an abstract network function from url string to
response.  A nonpositive max_redirects raises Too many redirects before
anything else.  The page fetch falls back to fetching about:blank when the
response carries an error (the try/except around the request); the
fallback response is used unchecked, as in the source.  A 3xx status with
a Location header re-issues the load of that location (a GET: the payload
is not passed on) with the budget decremented; without the header it
raises.  The raised errors escape Frame.load: on the top-level load path
(Tab.load, MainThread._handle_event) no caller catches them.  A normal
status adopts the fetched url. -/
def Frame.load (net : String → NetResp) (url : String) (maxRedirects : Int) :
    Except LoadErr String :=
  if h : maxRedirects ≤ 0 then
    Except.error LoadErr.tooManyRedirects
  else
    let r0 := net url
    let fetched : String × NetResp :=
      if r0.error.isSome then ("about:blank", net "about:blank") else (url, r0)
    if 300 ≤ fetched.2.status ∧ fetched.2.status < 400 then
      match fetched.2.location with
      | some loc => Frame.load net loc (maxRedirects - 1)
      | none => Except.error LoadErr.missingLocation
    else
      Except.ok fetched.1
termination_by maxRedirects.toNat
decreasing_by
  simp only [not_le] at h
  omega

/-- A network in which every url answers with a redirect to itself: the
redirect cycle of the claim. -/
def netLoop : String → NetResp :=
  fun u => ⟨none, 301, some u⟩

/-- A network with one redirect hop from site/a to site/b and a 200
elsewhere, used to witness the redirect-following behaviour. -/
def netOnce : String → NetResp :=
  fun u => if u = "http://site/a" then ⟨none, 301, some "http://site/b"⟩
           else ⟨none, 200, none⟩

/-- The observable effects of one HTTPSURL.request call
(networking/https_url.py lines 12-41): whether a socket was taken or
opened and a request sent, the returned tuple, and the cache afterwards. -/
structure RequestOutcome where
  usedSocket : Bool
  sentRequest : Bool
  result : Int × List (String × String) × String × Option String
  cacheAfter : Cache
deriving DecidableEq

/-- HTTPSURL.request: the cache is consulted first under the url string
key; a hit returns the cached tuple at once, before any socket work.  On a
miss the exchange runs (abstracted into the netResponse argument, which
stands for _send_http_request plus _read_http_response; the payload
argument only shapes that exchange) and the response is stored through
CacheManager.set. -/
def HTTPSURL.request (cache : Cache) (urlStr : String)
    (_payload : Option String) (now : ℚ)
    (netResponse : Int × List (String × String) × String × Option String) :
    RequestOutcome :=
  match CacheManager.get cache urlStr now with
  | (some cached, cacheAfterGet) =>
    { usedSocket := false, sentRequest := false
      result := cached, cacheAfter := cacheAfterGet }
  | (none, cacheAfterGet) =>
    { usedSocket := true, sentRequest := true
      result := netResponse
      cacheAfter := CacheManager.set cacheAfterGet urlStr netResponse.1
        netResponse.2.1 netResponse.2.2.1 netResponse.2.2.2 now }

/-- One readline on the buffered response: everything up to and including
the next newline, or the whole rest at EOF; returns the line and the
remaining stream.  Bytes are modelled as characters. -/
def readLine : List Char → List Char × List Char
  | [] => ([], [])
  | c :: cs =>
    if c = '\n' then ([c], cs)
    else
      let p := readLine cs
      (c :: p.1, p.2)

/-- One hexadecimal digit. -/
def hexDigit? (c : Char) : Option Nat :=
  if '0' ≤ c ∧ c ≤ '9' then some (c.toNat - '0'.toNat)
  else if 'a' ≤ c ∧ c ≤ 'f' then some (c.toNat - 'a'.toNat + 10)
  else if 'A' ≤ c ∧ c ≤ 'F' then some (c.toNat - 'A'.toNat + 10)
  else none

/-- Python int(s, 16) on a stripped chunk-size line: none on the empty
line (EOF) or any non-hex character, in which case the source raises
ValueError and the response fails.  (Python also accepts a sign, an 0x
prefix and underscores, which no HTTP peer sends in a chunk size.) -/
def hexParse (l : List Char) : Option Nat :=
  if l.isEmpty then none
  else
    l.foldl (fun acc c =>
      match acc, hexDigit? c with
      | some n, some d => some (16 * n + d)
      | _, _ => none) (some 0)

/-- The chunked branch of HTTPBase._read_http_response
(networking/http_base.py lines 120-135): repeatedly readline, strip, parse
the hex size; stop after a final readline when the size is zero; otherwise
read exactly that many bytes, readline the trailing CRLF, and continue.
None models the ValueError when a size line does not parse (including a
truncated stream, where readline yields an empty line). -/
def readChunked : List Char → Option (List Char)
  | [] => none
  | c :: cs =>
    let line := readLine (c :: cs)
    match hexParse (stripLine line.1) with
    | none => none
    | some 0 => some []
    | some (n + 1) =>
      let chunk := line.2.take (n + 1)
      let rest := line.2.drop (n + 1)
      let afterCrlf := (readLine rest).2
      match readChunked afterCrlf with
      | some body => some (chunk ++ body)
      | none => none
termination_by l => l.length
decreasing_by
  have hle : ∀ s : List Char, (readLine s).2.length + 1 ≤ s.length + 1 := by
    intro s
    induction s with
    | nil => simp [readLine]
    | cons a as ih =>
      simp only [readLine]
      by_cases h : a = '\n'
      · simp [h]
      · simp only [h, if_false, List.length_cons]
        omega
  have h1 : (readLine (c :: cs)).2.length < (c :: cs).length := by
    have h := hle cs
    simp only [readLine]
    by_cases hc : c = '\n'
    · simp [hc]
    · simp only [hc, if_false, List.length_cons]
      omega
  have h2 := hle ((readLine (c :: cs)).2.drop (n + 1))
  have h3 : ((readLine (c :: cs)).2.drop (n + 1)).length ≤ (readLine (c :: cs)).2.length := by
    simp
  omega

/-- Python str.lower restricted to ascii, character by character (the
iterator-free model of the .lower() calls in _read_http_response). -/
def lowerStr (s : String) : String :=
  String.mk (s.data.map Char.toLower)

/-- Python int(s) on a Content-Length value, restricted to plain digit
strings: none on the empty string or any non-digit, in which case the
source raises ValueError.  The lenient corners of int() (whitespace,
sign, underscores) sit behind the parse-success hypothesis of the
Content-Length theorem, which quantifies over the parsed value. -/
def decParse (l : List Char) : Option Nat :=
  if l.isEmpty then none
  else
    l.foldl (fun acc c =>
      match acc, decDigit? c with
      | some n, some d => some (10 * n + d)
      | _, _ => none) (some 0)

/-- The body-reading dispatch of HTTPBase._read_http_response (lines
119-142), over the already lowercased header map: the chunked decoder when
Transfer-Encoding is chunked, else exactly Content-Length bytes (int parse
failure raises: none), else the whole rest of the stream. -/
def readBody (headers : List (String × String)) (stream : List Char) :
    Option (List Char) :=
  if lowerStr ((headers.lookup "transfer-encoding").getD "") == "chunked" then
    readChunked stream
  else
    match headers.lookup "content-length" with
    | some v =>
      match decParse v.data with
      | some n => some (stream.take n)
      | none => none
    | none => some stream

/-- The wire body of the chunked example in the claim. -/
def chunkedWire : List Char :=
  "5\r\nHello\r\n0\r\n\r\n".data

/-- The resolved style entries a layout object reads off its DOM node:
color, font-weight, font-style, and the numeric value of font-size in px
(the source stores the string with a px suffix and strips the suffix with
a float parse at every use). -/
structure NodeStyle where
  color : String
  fontWeight : String
  fontStyle : String
  fontSizePx : ℚ
deriving DecidableEq

/-- A DOM node after styling: Text or Element with ordered children
(browser_engine/dom). -/
inductive DomNode where
  | text (s : String) (style : NodeStyle)
  | elem (tag : String) (style : NodeStyle) (children : List DomNode)

/-- The key of the process-wide font cache (rendering/font.py get_font):
pixel size, weight, slant. -/
structure FontKey where
  size : Int
  weight : String
  style : String
deriving DecidableEq

/-- The 2-D graphics library behind SkiaFont, abstracted: text measurement
and the three font metrics, as arbitrary rational-valued functions (the
ascent is abs(fAscent) as in SkiaFont.metrics). -/
structure FontTable where
  measure : FontKey → String → ℚ
  ascent : FontKey → ℚ
  descent : FontKey → ℚ
  leading : FontKey → ℚ

/-- SkiaFont.metrics linespace = abs(fAscent) + fDescent + fLeading. -/
def FontTable.linespace (ft : FontTable) (k : FontKey) : ℚ :=
  ft.ascent k + ft.descent k + ft.leading k

/-- The font selection common to TextLayout.layout, InputLayout.layout and
BlockLayout.word: css normal maps to roman, oblique to italic, and the
pixel size is the truncated 0.75 scaling. -/
def styleFontKey (sty : NodeStyle) : FontKey :=
  let styleVal :=
    if sty.fontStyle = "normal" then "roman"
    else if sty.fontStyle = "oblique" then "italic"
    else sty.fontStyle
  { size := layoutFontPx sty.fontSizePx, weight := sty.fontWeight, style := styleVal }

/-- BlockLayout.BLOCK_ELEMENTS (layout/block_layout.py lines 12-19). -/
def BLOCK_ELEMENTS : List String :=
  ["html", "body", "article", "section", "nav", "aside",
   "h1", "h2", "h3", "h4", "h5", "h6", "hgroup", "header",
   "footer", "address", "p", "hr", "pre", "blockquote",
   "ol", "ul", "menu", "li", "dl", "dt", "dd", "figure",
   "figcaption", "main", "div", "table", "form", "fieldset",
   "legend", "details", "summary"]

/-- BlockLayout.layout_mode (block_layout.py lines 35-47): true stands for
block mode, false for inline mode. -/
def layoutMode : DomNode → Bool
  | DomNode.text _ _ => false
  | DomNode.elem tag _ children =>
    if children.any (fun c =>
        match c with
        | DomNode.elem t _ _ => BLOCK_ELEMENTS.contains t
        | DomNode.text _ _ => false) then true
    else if !children.isEmpty || tag == "input" || tag == "button" then false
    else true

/-- A TextLayout or InputLayout sitting on a line, with the fields fixed
at insertion time (x and width; y and height follow in the line pass). -/
structure InlineBox where
  style : NodeStyle
  word : String
  x : ℚ
  width : ℚ
  font : FontKey
  isInput : Bool

/-- A LineLayout under construction: x and width copied from the parent
block at creation (line_layout.py lines 7-8). -/
structure LineBox where
  x : ℚ
  width : ℚ
  children : List InlineBox

/-- The inline-mode state of a BlockLayout: its x and width plus the lines
built so far (the last one is the current line). -/
structure InlineState where
  x : ℚ
  width : ℚ
  lines : List LineBox

/-- BlockLayout.new_line: append a fresh empty LineLayout. -/
def newLine (st : InlineState) : InlineState :=
  { st with lines := st.lines ++ [{ x := st.x, width := st.width, children := [] }] }

/-- Replace the current (last) line. -/
def setLastLine (st : InlineState) (l : LineBox) : InlineState :=
  { st with lines := st.lines.dropLast ++ [l] }

/-- INPUT_WIDTH_PX (layout/input_layout.py line 5). -/
def INPUT_WIDTH_PX : ℚ := 200

/-- BlockLayout.word (block_layout.py lines 99-137): measure the word and
a space with the style font; a previous word on the line makes the
candidate end position previous end + space + word width, else line x +
word width; past the line right edge a new line is started and previous
cleared; the word box x is previous end + space, or the line x.  Width and
x equal what TextLayout.layout later computes. -/
def addWord (ft : FontTable) (st : InlineState) (sty : NodeStyle) (word : String) :
    InlineState :=
  let font := styleFontKey sty
  let wordWidth := ft.measure font word
  let spaceWidth := ft.measure font " "
  let line0 := st.lines.getLastD { x := st.x, width := st.width, children := [] }
  let prev0 := line0.children.getLast?
  let totalWidth :=
    match prev0 with
    | some p => p.x + p.width + spaceWidth + wordWidth
    | none => line0.x + wordWidth
  let wraps : Bool := decide (line0.x + line0.width < totalWidth)
  let st1 := if wraps then newLine st else st
  let line := st1.lines.getLastD { x := st1.x, width := st1.width, children := [] }
  let prev := if wraps then none else prev0
  let xw :=
    match prev with
    | some p => p.x + p.width + spaceWidth
    | none => line.x
  setLastLine st1 { line with children := line.children ++
    [{ style := sty, word := word, x := xw, width := wordWidth
       font := font, isInput := false }] }

/-- BlockLayout.input (block_layout.py lines 169-189): a temporary
InputLayout determines the would-be x (previous end + space measured with
the input style font, or line x); if x + 200 passes the right edge a new
line is started; the real InputLayout is then appended with width 200. -/
def addInput (ft : FontTable) (st : InlineState) (sty : NodeStyle) : InlineState :=
  let font := styleFontKey sty
  let spaceWidth := ft.measure font " "
  let line0 := st.lines.getLastD { x := st.x, width := st.width, children := [] }
  let prev0 := line0.children.getLast?
  let tempX :=
    match prev0 with
    | some p => p.x + p.width + spaceWidth
    | none => line0.x
  let wraps : Bool := decide (line0.x + line0.width < tempX + INPUT_WIDTH_PX)
  let st1 := if wraps then newLine st else st
  let line := st1.lines.getLastD { x := st1.x, width := st1.width, children := [] }
  let prev := if wraps then none else prev0
  let xw :=
    match prev with
    | some p => p.x + p.width + spaceWidth
    | none => line.x
  setLastLine st1 { line with children := line.children ++
    [{ style := sty, word := "", x := xw, width := INPUT_WIDTH_PX
       font := font, isInput := true }] }

/-- Python str.split() without arguments: split on whitespace runs,
dropping empty pieces. -/
def pySplit (s : String) : List String :=
  (s.split isPySpace).filter (fun w => w != "")

mutual

/-- BlockLayout.recurse (block_layout.py lines 86-97): words of a Text
node are added one by one; br starts a new line; input and button add an
InputLayout; other elements recurse into their children. -/
def inlineRecurse (ft : FontTable) (st : InlineState) : DomNode → InlineState
  | DomNode.text s sty => (pySplit s).foldl (fun acc w => addWord ft acc sty w) st
  | DomNode.elem tag sty children =>
    if tag == "br" then newLine st
    else if tag == "input" || tag == "button" then addInput ft st sty
    else inlineRecurseList ft st children

/-- The child loop of BlockLayout.recurse. -/
def inlineRecurseList (ft : FontTable) (st : InlineState) :
    List DomNode → InlineState
  | [] => st
  | c :: cs => inlineRecurseList ft (inlineRecurse ft st c) cs

end

/-- The kinds of layout boxes. -/
inductive BoxKind where
  | document
  | block
  | line
  | textbox
  | inputbox
deriving DecidableEq

/-- A laid-out box: kind, geometry and children, as finalized by
layout(). -/
structure Box where
  kind : BoxKind
  x : ℚ
  y : ℚ
  width : ℚ
  height : ℚ
  children : List Box

/-- Python max over a nonempty sequence (the empty case never arises in
LineLayout.layout, which guards on children). -/
def qListMax : List ℚ → ℚ
  | [] => 0
  | q :: qs => qs.foldl max q

/-- LineLayout.layout height computation (line_layout.py lines 25-40): an
empty line gets 1.25 times the linespace of the default 12 px normal roman
font; otherwise 1.25 times the sum of the maximal ascent and the maximal
descent over the children fonts. -/
def lineHeight (ft : FontTable) (l : LineBox) : ℚ :=
  if l.children.isEmpty then
    (5 / 4 : ℚ) * ft.linespace { size := 12, weight := "normal", style := "roman" }
  else
    (5 / 4 : ℚ) * (qListMax (l.children.map (fun w => ft.ascent w.font)) +
      qListMax (l.children.map (fun w => ft.descent w.font)))

/-- LineLayout.layout: the line y is given by the caller chain; baseline =
y + 1.25 * max ascent; every child sits at baseline minus its ascent with
height equal to its font linespace (TextLayout and InputLayout alike). -/
def lineToBox (ft : FontTable) (l : LineBox) (y : ℚ) : Box :=
  let maxAscent := qListMax (l.children.map (fun w => ft.ascent w.font))
  let baseline := y + (5 / 4 : ℚ) * maxAscent
  let kids := l.children.map (fun w =>
    Box.mk (if w.isInput then BoxKind.inputbox else BoxKind.textbox)
      w.x (baseline - ft.ascent w.font) w.width (ft.linespace w.font) [])
  Box.mk BoxKind.line l.x y l.width (lineHeight ft l) kids

/-- The per-line layout loop: the first line starts at the parent y, each
further line at the previous line bottom. -/
def layoutLines (ft : FontTable) : List LineBox → ℚ → List Box
  | [], _ => []
  | l :: ls, y =>
    let b := lineToBox ft l y
    b :: layoutLines ft ls (y + b.height)

/-- The inline branch of BlockLayout.layout (block_layout.py lines
71-84): one fresh line, recurse over the subtree, lay the lines out, and
set height to the sum of the line heights. -/
def inlineBlockBox (ft : FontTable) (x y width : ℚ) (node : DomNode) : Box :=
  let st := inlineRecurse ft (newLine { x := x, width := width, lines := [] }) node
  let lineBoxes := layoutLines ft st.lines y
  Box.mk BoxKind.block x y width ((lineBoxes.map Box.height).sum) lineBoxes

mutual

/-- BlockLayout.layout (block_layout.py lines 49-84): x and width come
from the parent, y from the previous sibling bottom when there is one,
else from the parent y; block mode allocates a BlockLayout per DOM child,
lays them out in order and sets height to the sum of the child heights;
inline mode builds lines and sums their heights. -/
def blockLayout (ft : FontTable) (x parentY width : ℚ) (prevBottom : Option ℚ) :
    DomNode → Box
  | DomNode.text s sty =>
    inlineBlockBox ft x (prevBottom.getD parentY) width (DomNode.text s sty)
  | DomNode.elem tag sty children =>
    let y := prevBottom.getD parentY
    if layoutMode (DomNode.elem tag sty children) then
      let kids := blockChildren ft x y width children none
      Box.mk BoxKind.block x y width ((kids.map Box.height).sum) kids
    else
      inlineBlockBox ft x y width (DomNode.elem tag sty children)

/-- The block-mode child loop of BlockLayout.layout: the first child has
no previous sibling, each further child chains on the previous bottom. -/
def blockChildren (ft : FontTable) (x parentY width : ℚ) :
    List DomNode → Option ℚ → List Box
  | [], _ => []
  | c :: cs, prevBottom =>
    let b := blockLayout ft x parentY width prevBottom c
    b :: blockChildren ft x parentY width cs (some (b.y + b.height))

end

/-- DocumentLayout.layout (layout/document_layout.py lines 16-24): one
BlockLayout child at (HSTEP, VSTEP) with the width shrunk by both margins
(the shrink happens before child.layout reads parent.width); the document
height is the child height. -/
def documentLayout (ft : FontTable) (node : DomNode) (width : ℚ) : Box :=
  let innerWidth := width - 2 * HSTEP
  let child := blockLayout ft HSTEP VSTEP innerWidth none node
  Box.mk BoxKind.document HSTEP VSTEP innerWidth child.height [child]

/-- The claimed invariant over a laid-out tree: every block container (a
BlockLayout in either mode, and the DocumentLayout) has height equal to
the sum of its children heights, recursively. -/
def Box.heightOK : Box → Bool
  | Box.mk k x y w h children =>
    (if k = BoxKind.document ∨ k = BoxKind.block then
        h == (children.map Box.height).sum
      else true) &&
    children.attach.all (fun c => Box.heightOK c.1)
termination_by b => sizeOf b
decreasing_by
  have hmem := List.sizeOf_lt_of_mem c.2
  simp only [Box.mk.sizeOf_spec]
  omega

/-- A one-entry cookie jar with a SameSite=Lax cookie for a.com. -/
def jarFix : CookieJar :=
  [("a.com", ("sid=1", [("samesite", "lax")]))]

/-- A one-entry response cache, the entry expiring at time 100. -/
def cacheFix : Cache :=
  [("https://h/x", ⟨200, [("cache-control", "max-age=60")], "body", none, 100⟩)]

/-- A concrete tab fixture: scroll 10, viewport height 100, document
height 300. -/
def tabFix : Tab :=
  { scroll := 10, height := 100, history := [], url := none, docHeight := some 300 }

/-- C1 (amended): handling SCROLL_DOWN clamps the scroll into
[0, max(0, document_height - viewport_height)] and handling SCROLL_UP
keeps it in [0, previous scroll], but handling SCROLL_TO(s) stores s
unclamped - the main thread applies no clamp to a posted SCROLL_TO
(the UI thread clamps before posting). -/
theorem scroll_event_clamping (t : Tab) (s : ℚ) (hs : 0 ≤ t.scroll) :
    (0 ≤ (Tab.scrolldown t).scroll ∧
      (Tab.scrolldown t).scroll ≤ max 0 (t.get_max_y - t.height)) ∧
    (0 ≤ (Tab.scollup t).scroll ∧ (Tab.scollup t).scroll ≤ t.scroll) ∧
    (MainThread.handleScrollTo t s).scroll = s := by
  refine ⟨⟨?_, ?_⟩, ⟨?_, ?_⟩, rfl⟩
  · exact le_min (by unfold SCROLL_STEP; linarith) (le_max_left 0 _)
  · exact min_le_right _ _
  · unfold Tab.scollup
    split
    · exact hs
    · exact le_max_left 0 _
  · unfold Tab.scollup
    split
    · exact le_refl _
    · exact max_le (by linarith) (by unfold SCROLL_STEP; linarith)

theorem scroll_event_clamping_witness :
    (0 : ℚ) ≤ tabFix.scroll ∧
    ((0 ≤ (Tab.scrolldown tabFix).scroll ∧
      (Tab.scrolldown tabFix).scroll ≤ max 0 (tabFix.get_max_y - tabFix.height)) ∧
    (0 ≤ (Tab.scollup tabFix).scroll ∧ (Tab.scollup tabFix).scroll ≤ tabFix.scroll) ∧
    (MainThread.handleScrollTo tabFix 5).scroll = 5) :=
  ⟨by norm_num [tabFix], scroll_event_clamping tabFix 5 (by norm_num [tabFix])⟩

/-- C1 counterexample: with no document (get_max_y = 0) and viewport 100,
the posted SCROLL_TO(5) leaves the scroll at 5, outside
[0, max(0, document_height - viewport_height)] = [0, 0]: the handler does
not apply the clamp of SCROLL_DOWN and SCROLL_UP. -/
theorem scroll_to_unclamped_cex :
    (MainThread.handleScrollTo (Tab.mk 0 100 [] none none) 5).scroll = 5 ∧
    ¬((MainThread.handleScrollTo (Tab.mk 0 100 [] none none) 5).scroll ≤
      max 0 ((Tab.get_max_y (Tab.mk 0 100 [] none none)) - 100)) := by
  constructor
  · rfl
  · norm_num [MainThread.handleScrollTo, Tab.get_max_y]

/-- C3 (amended): with a SameSite=Lax cookie in the jar for the host, the
Cookie header is attached iff no referrer is present, or the method is GET
(payload falsy), or the referrer host equals the request host.  In
particular a non-GET request without a referrer still attaches the cookie:
the lax check in _send_http_request runs only under a referrer. -/
theorem samesite_lax_attachment (jar : CookieJar) (host cookie : String)
    (params : List (String × String)) (referrerHost : Option String)
    (payloadTruthy : Bool)
    (hjar : jar.lookup host = some (cookie, params))
    (hlax : params.lookup "samesite" = some "lax") :
    (attachesCookie jar host referrerHost payloadTruthy = true ↔
      (referrerHost = none ∨ payloadTruthy = false ∨ referrerHost = some host)) := by
  have hallow : attachesCookie jar host referrerHost payloadTruthy =
      sendCookieAllowed host params referrerHost payloadTruthy := by
    simp only [attachesCookie, hjar]
  rw [hallow]
  cases referrerHost with
  | none => simp [sendCookieAllowed]
  | some rh =>
    cases payloadTruthy with
    | false => simp [sendCookieAllowed, hlax]
    | true =>
      simp [sendCookieAllowed, hlax]
      try exact eq_comm

theorem samesite_lax_attachment_witness :
    (attachesCookie jarFix "a.com" (some "a.com") true = true ↔
      ((some "a.com" : Option String) = none ∨ true = false ∨
        (some "a.com" : Option String) = some "a.com")) :=
  samesite_lax_attachment jarFix "a.com" "sid=1" [("samesite", "lax")]
    (some "a.com") true (by decide) (by decide)

/-- C3 counterexample: a POST (truthy payload) with no referrer to a host
whose jar entry is SameSite=Lax attaches the Cookie header, while the
claimed rule (GET or same host as the referrer, otherwise withheld) says
it is withheld. -/
theorem samesite_lax_no_referrer_cex :
    attachesCookie jarFix "a.com" none true = true ∧
    specLaxAttach "a.com" none true = false := by
  constructor
  · decide
  · decide

/-- C5: JSContext.postMessage looks the target frame up and checks the
targetOrigin, but the dispatch line is commented out in the source, so no
message event is delivered on any input - also when targetOrigin is "*"
or matches the target frame origin, where the claim and the spec require a
delivered event. -/
theorem postMessage_delivers_no_event (frames : List FrameInfo) (tid : Int)
    (msg torigin : String) :
    JSContext.postMessage frames tid msg torigin = none := by
  unfold JSContext.postMessage
  cases frames.find? (fun f => f.frameId == tid) with
  | none => rfl
  | some f =>
    by_cases h1 : f.hasJsContext = false
    · simp [h1]
    · simp [h1, ite_self]

/-- C6 (amended): from an empty history, loading u1 and then u2 (the
anchor click path calls Tab.load directly) leaves history depth 2; GO_BACK
then makes the current URL the previous entry u1 (the history becoming
[u1, u1] because load re-appends) - but the scroll offset is left
unchanged, not reset to 0: neither Tab.load nor Tab.go_back writes it. -/
theorem go_back_history_and_scroll (t : Tab) (u1 u2 : String)
    (h : t.history = []) :
    (((t.load u1).load u2).history).length = 2 ∧
    (((t.load u1).load u2).go_back).url = some u1 ∧
    (((t.load u1).load u2).go_back).scroll = t.scroll ∧
    (((t.load u1).load u2).go_back).history = [u1, u1] := by
  simp [Tab.load, Tab.go_back, h]

theorem go_back_history_and_scroll_witness :
    (((tabFix.load "http://a/1").load "http://a/2").history).length = 2 ∧
    (((tabFix.load "http://a/1").load "http://a/2").go_back).url =
      some "http://a/1" ∧
    (((tabFix.load "http://a/1").load "http://a/2").go_back).scroll =
      tabFix.scroll ∧
    (((tabFix.load "http://a/1").load "http://a/2").go_back).history =
      ["http://a/1", "http://a/1"] :=
  go_back_history_and_scroll tabFix "http://a/1" "http://a/2" (by decide)

/-- C6 counterexample: scroll 50 (set through a SCROLL_TO event) survives
GO_BACK unchanged; the claimed reset to 0 does not happen. -/
theorem go_back_scroll_not_reset_cex :
    ((MainThread.handleScrollTo
        (((Tab.mk 0 100 [] none (some 600)).load "http://a/1").load "http://a/2")
        50).go_back).scroll = 50 ∧
    ((50 : ℚ) ≠ 0) ∧
    ((MainThread.handleScrollTo
        (((Tab.mk 0 100 [] none (some 600)).load "http://a/1").load "http://a/2")
        50).go_back).url = some "http://a/1" := by
  refine ⟨?_, by norm_num, ?_⟩ <;> decide

/-- C7 (amended): the pixel size of the font used to measure and draw a
word equals the CSS font-size in px times 0.75 truncated toward zero
(Python int), which is the floor for nonnegative sizes; it agrees with the
round-half-up value of the spec exactly when the fractional part of
0.75 times the font-size is below one half. -/
theorem font_px_truncation (q : ℚ) (hq : 0 ≤ q) :
    layoutFontPx q = ⌊q * (3 / 4 : ℚ)⌋ ∧
    (layoutFontPx q = specFontPx q ↔ Int.fract (q * (3 / 4 : ℚ)) < 1 / 2) := by
  have h34 : (0 : ℚ) ≤ q * (3 / 4 : ℚ) := by positivity
  have hfl : (⌊q * (3 / 4 : ℚ)⌋ : ℚ) ≤ q * (3 / 4 : ℚ) := Int.floor_le _
  constructor
  · unfold layoutFontPx pythonInt
    rw [if_neg (not_lt.mpr h34)]
  · unfold layoutFontPx specFontPx pythonInt
    rw [if_neg (not_lt.mpr h34), eq_comm, Int.floor_eq_iff]
    unfold Int.fract
    constructor
    · rintro ⟨_, h2⟩
      linarith
    · intro h
      constructor <;> linarith

theorem font_px_truncation_witness :
    layoutFontPx 4 = ⌊(4 : ℚ) * (3 / 4 : ℚ)⌋ ∧
    (layoutFontPx 4 = specFontPx 4 ↔ Int.fract ((4 : ℚ) * (3 / 4 : ℚ)) < 1 / 2) :=
  font_px_truncation 4 (by norm_num)

/-- C7 counterexample: at a resolved font-size of 2 px the source computes
int(2 * 0.75) = int(1.5) = 1 while round(1.5) = 2: truncation, not
rounding. -/
theorem font_px_round_cex :
    layoutFontPx 2 = 1 ∧ specFontPx 2 = 2 ∧ layoutFontPx 2 ≠ specFontPx 2 := by
  refine ⟨?_, ?_, ?_⟩ <;>
    norm_num [layoutFontPx, specFontPx, pythonInt, Int.floor_eq_iff]

/-- C10: when the cache holds an unexpired entry for the url string, an
HTTPSURL.request returns exactly that entry, takes or opens no socket,
sends nothing, and leaves the cache unchanged - for every method and
payload, so also for a POST carrying a payload. -/
theorem https_request_cache_hit (cache : Cache) (urlStr : String)
    (payload : Option String) (now : ℚ)
    (net : Int × List (String × String) × String × Option String)
    (e : CacheEntry)
    (hl : List.lookup urlStr cache = some e) (he : now < e.expiresAt) :
    HTTPSURL.request cache urlStr payload now net =
      { usedSocket := false, sentRequest := false,
        result := (e.status, e.headers, e.body, e.csp), cacheAfter := cache } := by
  have hget : CacheManager.get cache urlStr now =
      (some (e.status, e.headers, e.body, e.csp), cache) := by
    simp only [CacheManager.get, hl, if_neg (not_le.mpr he)]
  simp only [HTTPSURL.request, hget]

theorem https_request_cache_hit_witness :
    HTTPSURL.request cacheFix "https://h/x" (some "a=1&b=2") 0
        (404, [], "late", none) =
      { usedSocket := false, sentRequest := false,
        result := (200, [("cache-control", "max-age=60")], "body", none),
        cacheAfter := cacheFix } :=
  https_request_cache_hit cacheFix "https://h/x" (some "a=1&b=2") 0
    (404, [], "late", none) ⟨200, [("cache-control", "max-age=60")], "body", none, 100⟩
    (by decide) (by norm_num)

theorem netLoop_all (u : String) (n : Int) :
    Frame.load netLoop u n = Except.error LoadErr.tooManyRedirects := by
  by_cases h : n ≤ 0
  · rw [Frame.load]
    rw [dif_pos h]
  · rw [Frame.load]
    rw [dif_neg h]
    simp only [netLoop, Option.isSome_none, Bool.false_eq_true, if_false]
    norm_num
    exact netLoop_all u (n - 1)
termination_by n.toNat
decreasing_by omega

/-- C2 (amended): Frame.load follows a redirect (status in [300,400) with
a Location header) by re-issuing a GET to that location with the shared
budget decremented; a redirect response missing the Location header is a
fatal error (the Redirect-without-Location exception); a nonpositive
budget raises the Too-many-redirects exception before fetching; a
non-redirect success adopts the fetched url; and a failing fetch falls
back to about:blank.  Exhausting the budget does NOT surface as a load of
about:blank: the raised exception propagates (see the counterexample). -/
theorem frame_load_redirect_behaviour :
    (∀ (net : String → NetResp) (url loc : String) (n : Int),
      0 < n → (net url).error = none →
      300 ≤ (net url).status → (net url).status < 400 →
      (net url).location = some loc →
      Frame.load net url n = Frame.load net loc (n - 1)) ∧
    (∀ (net : String → NetResp) (url : String) (n : Int),
      0 < n → (net url).error = none →
      300 ≤ (net url).status → (net url).status < 400 →
      (net url).location = none →
      Frame.load net url n = Except.error LoadErr.missingLocation) ∧
    (∀ (net : String → NetResp) (url : String) (n : Int), n ≤ 0 →
      Frame.load net url n = Except.error LoadErr.tooManyRedirects) ∧
    (∀ (net : String → NetResp) (url : String) (n : Int),
      0 < n → (net url).error = none →
      ¬(300 ≤ (net url).status ∧ (net url).status < 400) →
      Frame.load net url n = Except.ok url) ∧
    (∀ (net : String → NetResp) (url e : String) (n : Int),
      0 < n → (net url).error = some e →
      ¬(300 ≤ (net "about:blank").status ∧ (net "about:blank").status < 400) →
      Frame.load net url n = Except.ok "about:blank") := by
  refine ⟨?_, ?_, ?_, ?_, ?_⟩
  · intro net url loc n hn herr h3 h4 hloc
    rw [Frame.load, dif_neg (not_le.mpr hn)]
    simp [herr, h3, h4, hloc]
  · intro net url n hn herr h3 h4 hloc
    rw [Frame.load, dif_neg (not_le.mpr hn)]
    simp [herr, h3, h4, hloc]
  · intro net url n hn
    rw [Frame.load, dif_pos hn]
  · intro net url n hn herr hns
    rw [Frame.load, dif_neg (not_le.mpr hn)]
    simp [herr, hns]
  · intro net url e n hn herr hns
    rw [Frame.load, dif_neg (not_le.mpr hn)]
    simp [herr, hns]

theorem frame_load_redirect_behaviour_witness :
    Frame.load netOnce "http://site/a" 10 =
      Frame.load netOnce "http://site/b" (10 - 1) :=
  frame_load_redirect_behaviour.1 netOnce "http://site/a" "http://site/b" 10
    (by norm_num) (by decide) (by decide) (by decide) (by decide)

/-- C2 counterexample: on a network where every url redirects to itself
with a Location header, Frame.load with the initial budget 10 terminates
in the Too-many-redirects exception, which no caller on the top-level load
path converts to about:blank - the claimed load of about:blank does not
happen. -/
theorem redirect_budget_cex :
    Frame.load netLoop "http://site/a" 10 = Except.error LoadErr.tooManyRedirects ∧
    Frame.load netLoop "http://site/a" 10 ≠ Except.ok "about:blank" := by
  have h := netLoop_all "http://site/a" 10
  refine ⟨h, ?_⟩
  rw [h]
  intro hc
  cases hc

/-- C8: with Transfer-Encoding chunked the body is decoded by repeatedly
reading a hex size line, that many bytes and the trailing CRLF until a
zero chunk, so the example wire body decodes to Hello; without chunking
but with a Content-Length that parses to n, exactly the first n bytes of
the stream are taken; with neither header the whole rest of the stream is
the body. -/
theorem read_http_body_correct :
    readBody [("transfer-encoding", "chunked")] chunkedWire = some "Hello".data ∧
    (∀ (v : String) (n : Nat) (s : List Char), decParse v.data = some n →
      readBody [("content-length", v)] s = some (s.take n)) ∧
    (∀ s : List Char, readBody [] s = some s) := by
  refine ⟨?_, ?_, ?_⟩
  · simp +decide [readBody, readChunked, readLine, stripLine, hexParse,
      hexDigit?, isPySpace, chunkedWire, lowerStr]
  · intro v n s hv
    simp +decide [readBody, List.lookup, hv, lowerStr]
  · intro s
    simp +decide [readBody, List.lookup, lowerStr]

theorem read_http_body_correct_witness :
    readBody [("content-length", "5")] "HelloWorld".data =
      some ("HelloWorld".data.take 5) :=
  read_http_body_correct.2.1 "5" 5 "HelloWorld".data (by decide)

theorem heightOK_mk_iff (k : BoxKind) (x y w h : ℚ) (cs : List Box) :
    Box.heightOK (Box.mk k x y w h cs) = true ↔
      (((k = BoxKind.document ∨ k = BoxKind.block) →
        h = (cs.map Box.height).sum) ∧
      (∀ b ∈ cs, Box.heightOK b = true)) := by
  rw [Box.heightOK, Bool.and_eq_true]
  constructor
  · rintro ⟨h1, h2⟩
    constructor
    · intro hk
      rw [if_pos hk] at h1
      exact beq_iff_eq.mp h1
    · intro b hb
      exact List.all_eq_true.mp h2 ⟨b, hb⟩ (List.mem_attach _ _)
  · rintro ⟨h1, h2⟩
    constructor
    · by_cases hk : k = BoxKind.document ∨ k = BoxKind.block
      · rw [if_pos hk]
        exact beq_iff_eq.mpr (h1 hk)
      · rw [if_neg hk]
    · exact List.all_eq_true.mpr (fun c _ => h2 c.1 c.2)

theorem lineToBox_heightOK (ft : FontTable) (l : LineBox) (y : ℚ) :
    Box.heightOK (lineToBox ft l y) = true := by
  simp only [lineToBox]
  rw [heightOK_mk_iff]
  constructor
  · rintro (h | h) <;> exact absurd h (by decide)
  · intro b hb
    simp only [List.mem_map] at hb
    obtain ⟨w, _, rfl⟩ := hb
    rw [heightOK_mk_iff]
    constructor
    · intro hk
      by_cases hi : w.isInput = true <;> simp only [hi, if_true, if_false,
        Bool.false_eq_true] at hk <;> rcases hk with h | h <;>
        exact absurd h (by decide)
    · intro b2 hb2
      exact absurd hb2 (List.not_mem_nil b2)

theorem layoutLines_all (ft : FontTable) (ls : List LineBox) :
    ∀ (y : ℚ) b, b ∈ layoutLines ft ls y → Box.heightOK b = true := by
  induction ls with
  | nil => intro y b hb; simp [layoutLines] at hb
  | cons l rest ih =>
    intro y b hb
    simp only [layoutLines, List.mem_cons] at hb
    rcases hb with rfl | hb
    · exact lineToBox_heightOK ft l y
    · exact ih _ b hb

theorem inlineBlockBox_heightOK (ft : FontTable) (x y width : ℚ)
    (node : DomNode) :
    Box.heightOK (inlineBlockBox ft x y width node) = true := by
  simp only [inlineBlockBox]
  rw [heightOK_mk_iff]
  exact ⟨fun _ => rfl, fun b hb => layoutLines_all ft _ _ b hb⟩

mutual

theorem blockLayout_heightOK (ft : FontTable) (x parentY width : ℚ)
    (prevBottom : Option ℚ) :
    (node : DomNode) →
      Box.heightOK (blockLayout ft x parentY width prevBottom node) = true
  | DomNode.text s sty => by
    simp only [blockLayout]
    exact inlineBlockBox_heightOK ft x (prevBottom.getD parentY) width
      (DomNode.text s sty)
  | DomNode.elem tag sty children => by
    simp only [blockLayout]
    by_cases hm : layoutMode (DomNode.elem tag sty children) = true
    · rw [if_pos hm, heightOK_mk_iff]
      exact ⟨fun _ => rfl,
        fun b hb => blockChildren_all ft x (prevBottom.getD parentY) width
          children none b hb⟩
    · rw [if_neg hm]
      exact inlineBlockBox_heightOK ft x (prevBottom.getD parentY) width
        (DomNode.elem tag sty children)

theorem blockChildren_all (ft : FontTable) (x parentY width : ℚ) :
    (cs : List DomNode) → (prevBottom : Option ℚ) →
      ∀ b ∈ blockChildren ft x parentY width cs prevBottom,
        Box.heightOK b = true
  | [], _ => by
    intro b hb
    simp [blockChildren] at hb
  | c :: cs, prevBottom => by
    intro b hb
    simp only [blockChildren, List.mem_cons] at hb
    rcases hb with rfl | hb
    · exact blockLayout_heightOK ft x parentY width prevBottom c
    · exact blockChildren_all ft x parentY width cs _ b hb

end

/-- C9: for every font table, DOM tree and width, every laid-out block
container in the produced layout tree - each BlockLayout in block or
inline mode and the DocumentLayout - has height equal to the sum of its
children heights. -/
theorem layout_height_sum_invariant (ft : FontTable) (node : DomNode)
    (width : ℚ) :
    Box.heightOK (documentLayout ft node width) = true := by
  simp only [documentLayout]
  rw [heightOK_mk_iff]
  constructor
  · intro _
    simp
  · intro b hb
    simp only [List.mem_singleton] at hb
    subst hb
    exact blockLayout_heightOK ft HSTEP VSTEP (width - 2 * HSTEP) none node
